import Mathlib

/-!
# Node server of the NFS CSI driver: publish, unpublish and folder provisioning

A shallow embedding of `pkg/nfs/nodeserver.go`.

* Go strings are Lean `String`s.  The two separators the code splits on
  (`":"` and `"/"`) are single ASCII bytes, so splitting the characters
  of a string agrees with splitting its UTF-8 bytes.
* Every call that leaves the process (the mounter, the `os` and `ioutil`
  filesystem calls, `time.Sleep`) is answered by an environment `Env`.
  An answer may depend on everything that happened before, so each
  oracle receives the history of events so far, and each function of
  the embedding takes the history and returns the extended history.
* A Go function either returns, panics (index out of range) or ends the
  process (`log.Fatal`); `Outcome` keeps the three apart.
* The `logrus` logger and the `DEBUG` environment variable only select
  what is printed, they never influence control flow, and are left out.
-/

namespace nfs

/-! ## Library values -/

/-- The gRPC status codes `google.golang.org/grpc/codes` that occur here. -/
inductive Code
  | OK
  | Unknown
  | InvalidArgument
  | NotFound
  | PermissionDenied
  | Unimplemented
  | Internal
  deriving DecidableEq, Repr

/-- An error value produced by the operating system or the mounter, seen
through the three observations the code makes of it: `err.Error()`,
`os.IsNotExist(err)` and `os.IsPermission(err)`. -/
structure OSError where
  msg : String
  isNotExist : Bool
  isPermission : Bool
  deriving DecidableEq, Repr

/-- A Go `error` as returned by the node server: either built with
`status.Error(code, msg)` or an underlying error passed on unchanged. -/
inductive GoError
  | status (code : Code) (msg : String)
  | os (e : OSError)
  deriving DecidableEq, Repr

/-- The function `status.Code(err)` for a non-nil error: the code of a
status error, `codes.Unknown` for any other error. -/
def statusCode : GoError → Code
  | GoError.status c _ => c
  | GoError.os _ => Code.Unknown

/-- How a Go call ends. -/
inductive Outcome (α : Type)
  | returned (a : α)
  | panicked (msg : String)
  | exited (code : Nat)
  deriving DecidableEq, Repr

/-! ## Library functions -/

/-- The function `strconv.ParseBool`: the value and whether parsing failed
(`true` in the second component stands for a non-nil error). -/
def ParseBool (str : String) : Bool × Bool :=
  if str = "1" ∨ str = "t" ∨ str = "T" ∨ str = "TRUE" ∨ str = "true" ∨ str = "True" then
    (true, false)
  else if str = "0" ∨ str = "f" ∨ str = "F" ∨ str = "FALSE" ∨ str = "false"
      ∨ str = "False" then
    (false, false)
  else
    (false, true)

/-- The function `strings.Split(s, sep)` for a one-byte separator. -/
def stringsSplit (s : String) (sep : Char) : List String :=
  (s.data.splitOn sep).map String.mk

/-- The function `strings.Join(elems, sep)`. -/
def stringsJoin (elems : List String) (sep : String) : String :=
  String.mk (List.intercalate sep.data (elems.map String.data))

/-- The function `strings.Contains(s, substr)`. -/
def stringsContains (s substr : String) : Bool :=
  s.data.tails.any (fun t => substr.data.isPrefixOf t)

/-- One step of `path.Clean` on the stack of kept elements (innermost
first): `..` removes the element before it, is dropped at the root of a
rooted path, and is kept at the front of a relative one. -/
def cleanStep (rooted : Bool) (stack : List (List Char)) (elem : List Char) :
    List (List Char) :=
  if elem = ['.', '.'] then
    match stack with
    | [] => if rooted then [] else [elem]
    | top :: rest => if top = ['.', '.'] then elem :: stack else rest
  else elem :: stack

/-- The function `path.Clean`: empty and `.` elements vanish, `..` is
resolved by `cleanStep`, and the empty result is `.`. -/
def pathClean (p : String) : String :=
  if p = "" then "."
  else
    let rooted := p.data.head? = some '/'
    let elems := (p.data.splitOn '/').filter (fun e => e ≠ [] ∧ e ≠ ['.'])
    let kept := (elems.foldl (cleanStep rooted) []).reverse
    let body := List.intercalate ['/'] kept
    if rooted then String.mk ('/' :: body)
    else if body = [] then "." else String.mk body

/-- The function `path.Join`: leading empty elements are skipped, the rest
is joined with `/` and cleaned; when every element is empty the result
is `""`. -/
def pathJoin : List String → String
  | [] => ""
  | e :: es => if e = "" then pathJoin es else pathClean (stringsJoin (e :: es) "/")

/-- A slice expression `xs[i:]`, which panics when `i > len(xs)`. -/
def sliceFrom {α : Type} (xs : List α) (i : Nat) : Option (List α) :=
  if i ≤ xs.length then some (xs.drop i) else none

/-- Lookup in a Go `map[string]string`: the zero value `""` for an absent
key. -/
def mapGet (m : List (String × String)) (key : String) : String :=
  (m.lookup key).getD ""

/-! ## The environment -/

/-- One call that left the process, with its arguments and its answer. -/
inductive Event
  | isLikelyNotMountPoint (file : String) (notMnt : Bool) (err : Option OSError)
  | mkdirAll (path : String) (perm : Nat) (err : Option OSError)
  | tempDir (dir pattern name : String) (err : Option OSError)
  | mount (source target fstype : String) (options : List String) (err : Option OSError)
  | cleanupMountPoint (mountPath : String) (extensiveMountPointCheck : Bool)
      (err : Option OSError)
  | removeAll (path : String) (err : Option OSError)
  | sleep (d : Nat)
  deriving DecidableEq, Repr

/-- The answers of the outside world.  Each oracle sees the events so
far, so an answer may depend on any earlier call. -/
structure Env where
  isLikelyNotMountPoint : List Event → String → Bool × Option OSError
  mkdirAll : List Event → String → Nat → Option OSError
  tempDir : List Event → String → String → String × Option OSError
  mount : List Event → String → String → String → List String → Option OSError
  cleanupMountPoint : List Event → String → Bool → Option OSError
  removeAll : List Event → String → Option OSError

/-! ## The node server -/

/-- The struct `nodeServer`; the driver and the mounter are not state of
the embedding (the mounter is the environment). -/
structure nodeServer where
  createFolders : Bool
  deriving DecidableEq, Repr

/-- The fields of `csi.NodePublishVolumeRequest` the code reads.
`mountFlags` is `GetVolumeCapability().GetMount().GetMountFlags()`, which
is empty when a part of the chain is absent. -/
structure NodePublishVolumeRequest where
  targetPath : String
  volumeContext : List (String × String)
  mountFlags : List String
  readonly : Bool
  deriving DecidableEq, Repr

/-- The fields of `csi.NodeUnpublishVolumeRequest` the code reads. -/
structure NodeUnpublishVolumeRequest where
  targetPath : String
  deriving DecidableEq, Repr

/-- The value of `os.ModePerm`. -/
def ModePerm : Nat := 0o777

/-- The retry loop of `CreateFolders` (lines 199-206), with `remaining`
counting the iterations still allowed (`5 - tryings`).  The first
argument of the result is the value of `err` when the loop ends. -/
def unmountLoop (env : Env) (targetPath : String) :
    Nat → Option OSError → List Event → Option OSError × List Event
  | 0, err, h => (err, h)
  | remaining + 1, _, h =>
    let err := env.cleanupMountPoint h targetPath false
    let h1 := h ++ [Event.cleanupMountPoint targetPath false err]
    match err with
    | none => (none, h1)
    | some e => unmountLoop env targetPath remaining (some e) (h1 ++ [Event.sleep 2])

/-- Lines 175-185 of `CreateFolders`: the staging source `creationMount`
and the subpath `pathToCreate` of a share string, or the message of the
run-time panic raised by an index that is out of range. -/
def splitShare (share : String) : Except String (String × String) :=
  let splitted1 := stringsSplit share ':'
  match splitted1.get? 1 with
  | none => Except.error "index out of range"
  | some remote =>
    match sliceFrom (stringsSplit remote '/') 1 with
    | none => Except.error "slice bounds out of range"
    | some splitted2 =>
      match splitted1.get? 0, splitted2.get? 0 with
      | some host, some root =>
        let creationMount := host ++ ":/" ++ root
        match sliceFrom splitted2 1 with
        | none => Except.error "slice bounds out of range"
        | some rest => Except.ok (creationMount, stringsJoin rest "/")
      | _, _ => Except.error "index out of range"

/-- The method `CreateFolders`.  The result `none` is a nil error. -/
def CreateFolders (env : Env) (share : String) (mo : List String) (h : List Event) :
    Outcome (Option GoError) × List Event :=
  let tmp := env.tempDir h "/tmp" "FailoCreator"
  let targetPath := tmp.1
  let h1 := h ++ [Event.tempDir "/tmp" "FailoCreator" targetPath tmp.2]
  match tmp.2 with
  | some _ => (Outcome.exited 1, h1)
  | none =>
    let permissions := ModePerm
    match splitShare share with
    | Except.error m => (Outcome.panicked m, h1)
    | Except.ok (creationMount, pathToCreate) =>
      let err := env.mount h1 creationMount targetPath "nfs" mo
      let h2 := h1 ++ [Event.mount creationMount targetPath "nfs" mo err]
      match err with
      | some e => (Outcome.returned (some (GoError.os e)), h2)
      | none =>
        let dir := pathJoin [targetPath, pathToCreate]
        let err := env.mkdirAll h2 dir permissions
        let h3 := h2 ++ [Event.mkdirAll dir permissions err]
        match err with
        | some e => (Outcome.returned (some (GoError.os e)), h3)
        | none =>
          let h4 := (unmountLoop env targetPath 5 none h3).2
          let err := env.removeAll h4 targetPath
          let h5 := h4 ++ [Event.removeAll targetPath err]
          (Outcome.returned (err.map GoError.os), h5)

/-- The mount options of the request (lines 63-66). -/
def mountOptions (req : NodePublishVolumeRequest) : List String :=
  if req.readonly then req.mountFlags ++ ["ro"] else req.mountFlags

/-- The translation of a failure of the final mount (lines 84-90). -/
def mountFailure (e : OSError) : GoError :=
  if e.isPermission then GoError.status Code.PermissionDenied e.msg
  else if stringsContains e.msg "invalid argument" then
    GoError.status Code.InvalidArgument e.msg
  else GoError.status Code.Internal e.msg

/-- Lines 63-93 of `NodePublishVolume`: what happens once the target
path is known not to be mounted. -/
def publishNotMounted (env : Env) (ns : nodeServer) (req : NodePublishVolumeRequest)
    (h : List Event) : Outcome (Option GoError) × nodeServer × List Event :=
  let targetPath := req.targetPath
  let mo := mountOptions req
  let s := mapGet req.volumeContext "server"
  let ep := mapGet req.volumeContext "share"
  let parsed := ParseBool (mapGet req.volumeContext "createFolders")
  let ns1 : nodeServer := { ns with createFolders := if parsed.2 then false else parsed.1 }
  let source := s ++ ":" ++ ep
  let finalMount (h1 : List Event) : Outcome (Option GoError) × nodeServer × List Event :=
    let err := env.mount h1 source targetPath "nfs" mo
    let h2 := h1 ++ [Event.mount source targetPath "nfs" mo err]
    match err with
    | some e => (Outcome.returned (some (mountFailure e)), ns1, h2)
    | none => (Outcome.returned none, ns1, h2)
  if ns1.createFolders then
    match CreateFolders env source mo h with
    | (Outcome.returned none, h1) => finalMount h1
    | (Outcome.returned (some e), h1) => (Outcome.returned (some e), ns1, h1)
    | (Outcome.panicked m, h1) => (Outcome.panicked m, ns1, h1)
    | (Outcome.exited c, h1) => (Outcome.exited c, ns1, h1)
  else finalMount h

/-- The method `NodePublishVolume`.  The result `none` is the pair of an
empty response and a nil error, `some e` the pair of nil and `e`. -/
def NodePublishVolume (env : Env) (ns : nodeServer) (req : NodePublishVolumeRequest)
    (h : List Event) : Outcome (Option GoError) × nodeServer × List Event :=
  let targetPath := req.targetPath
  let insp := env.isLikelyNotMountPoint h targetPath
  let h1 := h ++ [Event.isLikelyNotMountPoint targetPath insp.1 insp.2]
  match insp.2 with
  | some e =>
    if e.isNotExist then
      let err := env.mkdirAll h1 targetPath 0o750
      let h2 := h1 ++ [Event.mkdirAll targetPath 0o750 err]
      match err with
      | some e2 => (Outcome.returned (some (GoError.status Code.Internal e2.msg)), ns, h2)
      | none => publishNotMounted env ns req h2
    else (Outcome.returned (some (GoError.status Code.Internal e.msg)), ns, h1)
  | none =>
    if !insp.1 then (Outcome.returned none, ns, h1)
    else publishNotMounted env ns req h1

/-- The method `NodeUnpublishVolume`. -/
def NodeUnpublishVolume (env : Env) (req : NodeUnpublishVolumeRequest) (h : List Event) :
    Outcome (Option GoError) × List Event :=
  let targetPath := req.targetPath
  let insp := env.isLikelyNotMountPoint h targetPath
  let h1 := h ++ [Event.isLikelyNotMountPoint targetPath insp.1 insp.2]
  match insp.2 with
  | some e =>
    if e.isNotExist then
      (Outcome.returned (some (GoError.status Code.NotFound "Targetpath not found")), h1)
    else (Outcome.returned (some (GoError.status Code.Internal e.msg)), h1)
  | none =>
    if insp.1 then
      (Outcome.returned (some (GoError.status Code.NotFound "Volume not mounted")), h1)
    else
      let err := env.cleanupMountPoint h1 req.targetPath false
      let h2 := h1 ++ [Event.cleanupMountPoint req.targetPath false err]
      match err with
      | some e => (Outcome.returned (some (GoError.status Code.Internal e.msg)), h2)
      | none => (Outcome.returned none, h2)

/-! ## Notions used to state the properties -/

/-- The inspection of the target path (lines 46-61) ends with the path
not mounted, and `h1` is the history at that point: either the path
exists and is not a mount point, or it was absent and has been created. -/
def InspectedNotMounted (env : Env) (req : NodePublishVolumeRequest)
    (h h1 : List Event) : Prop :=
  (env.isLikelyNotMountPoint h req.targetPath = (true, none) ∧
      h1 = h ++ [Event.isLikelyNotMountPoint req.targetPath true none]) ∨
  (∃ notMnt e, env.isLikelyNotMountPoint h req.targetPath = (notMnt, some e) ∧
      e.isNotExist = true ∧
      env.mkdirAll (h ++ [Event.isLikelyNotMountPoint req.targetPath notMnt (some e)])
        req.targetPath 0o750 = none ∧
      h1 = h ++ [Event.isLikelyNotMountPoint req.targetPath notMnt (some e),
        Event.mkdirAll req.targetPath 0o750 none])

/-- The strings `strconv.ParseBool` reads as `true`. -/
def trueWords : List String := ["1", "t", "T", "TRUE", "true", "True"]

/-- The source of the final mount: `server`, a colon, `share`. -/
def mountSource (req : NodePublishVolumeRequest) : String :=
  mapGet req.volumeContext "server" ++ ":" ++ mapGet req.volumeContext "share"

/-- Folder provisioning, started at history `h1`, is skipped or returns a
nil error, and `h2` is the history at that point. -/
def Provisioned (env : Env) (req : NodePublishVolumeRequest) (h1 h2 : List Event) : Prop :=
  (mapGet req.volumeContext "createFolders" ∉ trueWords ∧ h2 = h1) ∨
  (mapGet req.volumeContext "createFolders" ∈ trueWords ∧
      CreateFolders env (mountSource req) (mountOptions req) h1 = (Outcome.returned none, h2))

/-- The events of a list that are calls of `Mount` for the target `t`. -/
def mountsAt (t : String) (evs : List Event) : List Event :=
  evs.filter (fun ev =>
    match ev with
    | Event.mount _ target _ _ _ => decide (target = t)
    | _ => false)

/-- Whether a list of events has a call of `CleanupMountPoint` for `t`. -/
def unmountTried (t : String) (evs : List Event) : Bool :=
  evs.any (fun ev =>
    match ev with
    | Event.cleanupMountPoint p _ _ => decide (p = t)
    | _ => false)

/-- Whether a list of events has a call of `RemoveAll` for `t`. -/
def removalTried (t : String) (evs : List Event) : Bool :=
  evs.any (fun ev =>
    match ev with
    | Event.removeAll p _ => decide (p = t)
    | _ => false)

/-- The segments that `path.Clean` keeps when none of them is `..`: those
that are neither empty nor `.`. -/
def keptSegments (segs : List String) : List String :=
  segs.filter (fun s => decide (s ≠ "" ∧ s ≠ "."))

/-- The remote path `/s1/s2/.../sn` of the segments `s1, ..., sn`. -/
def slashPath : List String → String
  | [] => ""
  | seg :: segs => "/" ++ seg ++ slashPath segs

/-! ## Sample environments -/

/-- Whether `p` is a mount point after the events `h`. -/
def mountedAfter (p : String) (h : List Event) : Bool :=
  h.foldl (fun m ev =>
    match ev with
    | Event.mount _ t _ _ none => if t = p then true else m
    | Event.cleanupMountPoint t _ none => if t = p then false else m
    | _ => m) false

/-- Whether the directory `p` exists after the events `h`, in a world
whose only directory at the start is `/tmp`. -/
def existsAfter (p : String) (h : List Event) : Bool :=
  h.foldl (fun m ev =>
    match ev with
    | Event.mkdirAll t _ none => if t = p then true else m
    | Event.tempDir _ _ t none => if t = p then true else m
    | Event.cleanupMountPoint t _ none => if t = p then false else m
    | Event.removeAll t none => if t = p then false else m
    | _ => m) (decide (p = "/tmp"))

/-- The error of a path that does not exist. -/
def enoent : OSError := ⟨"no such file or directory", true, false⟩

/-- A small world that remembers mounts and directories: every call
succeeds, a mounted path stays mounted until it is cleaned up, and the
temporary directory is `/tmp/FailoCreator` followed by the number of
events so far. -/
def world : Env where
  isLikelyNotMountPoint := fun h p =>
    if existsAfter p h then (!mountedAfter p h, none) else (true, some enoent)
  mkdirAll := fun _ _ _ => none
  tempDir := fun h dir pattern => (dir ++ "/" ++ pattern ++ toString h.length, none)
  mount := fun _ _ _ _ _ => none
  cleanupMountPoint := fun _ _ _ => none
  removeAll := fun _ _ => none

/-- A publish request for `nfs.example.com` with the given share,
`createFolders` value, mount flags and read-only flag. -/
def sampleRequest (share flag : String) (flags : List String) (ro : Bool) :
    NodePublishVolumeRequest :=
  ⟨"/mnt/v1", [("server", "nfs.example.com"), ("share", share), ("createFolders", flag)],
    flags, ro⟩

/-- The sample world with failures injected: the answers of the staging
mount, of the creation of the subpath, of every unmount, of the removal
of the temporary directory and of the final mount at `/mnt/v1`. -/
def faultyWorld (stagingMount subpath unmount removal finalMount : Option OSError) : Env :=
  { world with
    mount := fun _ _ target _ _ => if target = "/mnt/v1" then finalMount else stagingMount
    mkdirAll := fun _ p _ => if p = "/mnt/v1" then none else subpath
    cleanupMountPoint := fun _ _ _ => unmount
    removeAll := fun _ _ => removal }

/-- The error of a mount helper that exits with a failure. -/
def mountExit32 : OSError := ⟨"mount failed: exit status 32", false, false⟩

/-- The error of a directory that is still in use. -/
def ebusy : OSError := ⟨"device or resource busy", false, false⟩

/-- The history of the sample world after the inspection of the absent
path `/mnt/v1` and its creation. -/
def inspectedHistory : List Event :=
  [Event.isLikelyNotMountPoint "/mnt/v1" true (some enoent),
    Event.mkdirAll "/mnt/v1" 0o750 none]

/-- The history of the sample world after the provisioning of
`nfs.example.com:/exports/data/tenantA` with the options `vers=4`, `ro`. -/
def provisionedHistory : List Event :=
  inspectedHistory ++
    [Event.tempDir "/tmp" "FailoCreator" "/tmp/FailoCreator2" none,
      Event.mount "nfs.example.com:/exports" "/tmp/FailoCreator2" "nfs" ["vers=4", "ro"] none,
      Event.mkdirAll "/tmp/FailoCreator2/data/tenantA" 0o777 none,
      Event.cleanupMountPoint "/tmp/FailoCreator2" false none,
      Event.removeAll "/tmp/FailoCreator2" none]

/-! ## Publish on a mounted target, unpublish on an unmounted one -/

/-- C2: when the inspection reports that the target path exists and is a
mount point, `NodePublishVolume` returns success and the only call it
makes is that inspection (no `Mount`, no provisioning, no directory
creation); in particular a second publish, run on the history and server
state left by a first one, does nothing else as soon as its inspection
reports the mount. -/
theorem NodePublishVolume_mounted_noop (env : Env) (ns : nodeServer)
    (req : NodePublishVolumeRequest) (h : List Event) :
    (env.isLikelyNotMountPoint h req.targetPath = (false, none) →
      NodePublishVolume env ns req h =
        (Outcome.returned none, ns,
          h ++ [Event.isLikelyNotMountPoint req.targetPath false none])) ∧
    (env.isLikelyNotMountPoint (NodePublishVolume env ns req h).2.2 req.targetPath
        = (false, none) →
      NodePublishVolume env (NodePublishVolume env ns req h).2.1 req
          (NodePublishVolume env ns req h).2.2 =
        (Outcome.returned none, (NodePublishVolume env ns req h).2.1,
          (NodePublishVolume env ns req h).2.2 ++
            [Event.isLikelyNotMountPoint req.targetPath false none])) := by
  have key : ∀ (ns0 : nodeServer) (h0 : List Event),
      env.isLikelyNotMountPoint h0 req.targetPath = (false, none) →
      NodePublishVolume env ns0 req h0 =
        (Outcome.returned none, ns0,
          h0 ++ [Event.isLikelyNotMountPoint req.targetPath false none]) := by
    intro ns0 h0 hm
    simp [NodePublishVolume, hm]
  exact ⟨key ns h, key _ _⟩

/-- C3: `NodeUnpublishVolume` answers `NotFound` and makes no call besides
the inspection when the target path does not exist or exists without
being a mount point, and answers `Internal` with the message of the
error when the inspection fails for another reason. -/
theorem NodeUnpublishVolume_not_mounted (env : Env) (req : NodeUnpublishVolumeRequest)
    (h : List Event) :
    (∀ notMnt e, env.isLikelyNotMountPoint h req.targetPath = (notMnt, some e) →
      e.isNotExist = true →
      NodeUnpublishVolume env req h =
        (Outcome.returned (some (GoError.status Code.NotFound "Targetpath not found")),
          h ++ [Event.isLikelyNotMountPoint req.targetPath notMnt (some e)])) ∧
    (env.isLikelyNotMountPoint h req.targetPath = (true, none) →
      NodeUnpublishVolume env req h =
        (Outcome.returned (some (GoError.status Code.NotFound "Volume not mounted")),
          h ++ [Event.isLikelyNotMountPoint req.targetPath true none])) ∧
    (∀ notMnt e, env.isLikelyNotMountPoint h req.targetPath = (notMnt, some e) →
      e.isNotExist = false →
      NodeUnpublishVolume env req h =
        (Outcome.returned (some (GoError.status Code.Internal e.msg)),
          h ++ [Event.isLikelyNotMountPoint req.targetPath notMnt (some e)])) := by
  refine ⟨?_, ?_, ?_⟩
  · intro notMnt e hi he
    simp [NodeUnpublishVolume, hi, he]
  · intro hi
    simp [NodeUnpublishVolume, hi]
  · intro notMnt e hi he
    simp [NodeUnpublishVolume, hi, he]

/-- Concrete instance in the sample world: a publish on a mounted path,
and a publish repeated right after a first one on a fresh path. -/
theorem NodePublishVolume_mounted_noop_witness :
    (world.isLikelyNotMountPoint
        [Event.mkdirAll "/mnt/v1" 0o750 none,
          Event.mount "nfs.example.com:/exports/data" "/mnt/v1" "nfs" ["ro"] none]
        (sampleRequest "/exports/data" "false" [] true).targetPath = (false, none) ∧
      NodePublishVolume world ⟨false⟩ (sampleRequest "/exports/data" "false" [] true)
          [Event.mkdirAll "/mnt/v1" 0o750 none,
            Event.mount "nfs.example.com:/exports/data" "/mnt/v1" "nfs" ["ro"] none] =
        (Outcome.returned none, ⟨false⟩,
          [Event.mkdirAll "/mnt/v1" 0o750 none,
            Event.mount "nfs.example.com:/exports/data" "/mnt/v1" "nfs" ["ro"] none] ++
          [Event.isLikelyNotMountPoint "/mnt/v1" false none])) ∧
    NodePublishVolume world
        (NodePublishVolume world ⟨false⟩ (sampleRequest "/exports/data" "false" [] true) []).2.1
        (sampleRequest "/exports/data" "false" [] true)
        (NodePublishVolume world ⟨false⟩ (sampleRequest "/exports/data" "false" [] true) []).2.2 =
      (Outcome.returned none,
        (NodePublishVolume world ⟨false⟩ (sampleRequest "/exports/data" "false" [] true) []).2.1,
        (NodePublishVolume world ⟨false⟩ (sampleRequest "/exports/data" "false" [] true) []).2.2
          ++ [Event.isLikelyNotMountPoint "/mnt/v1" false none]) :=
  ⟨⟨by decide,
      (NodePublishVolume_mounted_noop world ⟨false⟩
        (sampleRequest "/exports/data" "false" [] true)
        [Event.mkdirAll "/mnt/v1" 0o750 none,
          Event.mount "nfs.example.com:/exports/data" "/mnt/v1" "nfs" ["ro"] none]).1
        (by decide)⟩,
    (NodePublishVolume_mounted_noop world ⟨false⟩
      (sampleRequest "/exports/data" "false" [] true) []).2 (by decide)⟩

/-- Concrete instance of an unpublish: an absent path, a path that is not
a mount point, and an inspection that fails with an input/output error. -/
theorem NodeUnpublishVolume_not_mounted_witness :
    NodeUnpublishVolume world ⟨"/mnt/v1"⟩ [] =
      (Outcome.returned (some (GoError.status Code.NotFound "Targetpath not found")),
        [] ++ [Event.isLikelyNotMountPoint "/mnt/v1" true (some enoent)]) ∧
    NodeUnpublishVolume world ⟨"/mnt/v1"⟩ [Event.mkdirAll "/mnt/v1" 0o750 none] =
      (Outcome.returned (some (GoError.status Code.NotFound "Volume not mounted")),
        [Event.mkdirAll "/mnt/v1" 0o750 none] ++
          [Event.isLikelyNotMountPoint "/mnt/v1" true none]) ∧
    NodeUnpublishVolume
        { world with isLikelyNotMountPoint := fun _ _ =>
            (true, some ⟨"input/output error", false, false⟩) }
        ⟨"/mnt/v1"⟩ [] =
      (Outcome.returned (some (GoError.status Code.Internal "input/output error")),
        [] ++ [Event.isLikelyNotMountPoint "/mnt/v1" true
          (some ⟨"input/output error", false, false⟩)]) :=
  ⟨(NodeUnpublishVolume_not_mounted world ⟨"/mnt/v1"⟩ []).1 true enoent (by decide) rfl,
    (NodeUnpublishVolume_not_mounted world ⟨"/mnt/v1"⟩
      [Event.mkdirAll "/mnt/v1" 0o750 none]).2.1 (by decide),
    (NodeUnpublishVolume_not_mounted
      { world with isLikelyNotMountPoint := fun _ _ =>
          (true, some ⟨"input/output error", false, false⟩) }
      ⟨"/mnt/v1"⟩ []).2.2 true ⟨"input/output error", false, false⟩ rfl rfl⟩

/-! ## The path from the inspection to the final mount -/

/-- The value stored in `ns.createFolders` (lines 70-73) is `true` exactly
for the strings of `trueWords`. -/
theorem createFolders_flag (str : String) :
    (if (ParseBool str).2 then false else (ParseBool str).1) = decide (str ∈ trueWords) := by
  unfold ParseBool trueWords
  split_ifs <;> simp_all

/-- After an inspection that ends with "not mounted", `NodePublishVolume`
continues with lines 63-93. -/
theorem NodePublishVolume_of_inspected (env : Env) (ns : nodeServer)
    (req : NodePublishVolumeRequest) (h h1 : List Event)
    (hi : InspectedNotMounted env req h h1) :
    NodePublishVolume env ns req h = publishNotMounted env ns req h1 := by
  rcases hi with ⟨hm, rfl⟩ | ⟨notMnt, e, hm, he, hmk, rfl⟩
  · simp [NodePublishVolume, hm]
  · simp [NodePublishVolume, hm, he, hmk]

/-- Lines 63-93 when the flag does not read as `true`: the final mount is
the only call. -/
theorem publishNotMounted_skip (env : Env) (ns : nodeServer)
    (req : NodePublishVolumeRequest) (h : List Event)
    (hf : mapGet req.volumeContext "createFolders" ∉ trueWords) :
    publishNotMounted env ns req h =
      (Outcome.returned
          ((env.mount h (mountSource req) req.targetPath "nfs" (mountOptions req)).map
            mountFailure),
        ⟨false⟩,
        h ++ [Event.mount (mountSource req) req.targetPath "nfs" (mountOptions req)
          (env.mount h (mountSource req) req.targetPath "nfs" (mountOptions req))]) := by
  have hflag := createFolders_flag (mapGet req.volumeContext "createFolders")
  rw [decide_eq_false hf] at hflag
  unfold publishNotMounted
  simp only [hflag, mountSource]
  cases env.mount h (mapGet req.volumeContext "server" ++ ":" ++
    mapGet req.volumeContext "share") req.targetPath "nfs" (mountOptions req) <;> simp

/-- Lines 63-93 when the flag reads as `true` and `CreateFolders` returns a
nil error: the final mount follows the provisioning. -/
theorem publishNotMounted_provisioned (env : Env) (ns : nodeServer)
    (req : NodePublishVolumeRequest) (h h2 : List Event)
    (hf : mapGet req.volumeContext "createFolders" ∈ trueWords)
    (hc : CreateFolders env (mountSource req) (mountOptions req) h
      = (Outcome.returned none, h2)) :
    publishNotMounted env ns req h =
      (Outcome.returned
          ((env.mount h2 (mountSource req) req.targetPath "nfs" (mountOptions req)).map
            mountFailure),
        ⟨true⟩,
        h2 ++ [Event.mount (mountSource req) req.targetPath "nfs" (mountOptions req)
          (env.mount h2 (mountSource req) req.targetPath "nfs" (mountOptions req))]) := by
  have hflag := createFolders_flag (mapGet req.volumeContext "createFolders")
  rw [decide_eq_true hf] at hflag
  unfold mountSource at hc
  unfold publishNotMounted
  simp only [hflag, hc, mountSource]
  cases env.mount h2 (mapGet req.volumeContext "server" ++ ":" ++
    mapGet req.volumeContext "share") req.targetPath "nfs" (mountOptions req) <;> simp

/-- A request whose target is found not mounted and whose provisioning is
skipped or succeeds ends with the final mount, and its result is the
translation of the answer of that mount. -/
theorem NodePublishVolume_reaches_mount (env : Env) (ns : nodeServer)
    (req : NodePublishVolumeRequest) (h h1 h2 : List Event)
    (hi : InspectedNotMounted env req h h1) (hp : Provisioned env req h1 h2) :
    NodePublishVolume env ns req h =
      (Outcome.returned
          ((env.mount h2 (mountSource req) req.targetPath "nfs" (mountOptions req)).map
            mountFailure),
        ⟨decide (mapGet req.volumeContext "createFolders" ∈ trueWords)⟩,
        h2 ++ [Event.mount (mountSource req) req.targetPath "nfs" (mountOptions req)
          (env.mount h2 (mountSource req) req.targetPath "nfs" (mountOptions req))]) := by
  rw [NodePublishVolume_of_inspected env ns req h h1 hi]
  rcases hp with ⟨hf, rfl⟩ | ⟨hf, hc⟩
  · rw [publishNotMounted_skip env ns req h2 hf, decide_eq_false hf]
  · rw [publishNotMounted_provisioned env ns req h1 h2 hf hc, decide_eq_true hf]

/-- C4: when the final mount is reached and fails with the error `e`,
`NodePublishVolume` returns a status error whose message is the message
of `e` and whose kind is `PermissionDenied` if `e` is a permission error,
otherwise `InvalidArgument` if the message contains `invalid argument`,
otherwise `Internal`. -/
theorem NodePublishVolume_mount_error_kind (env : Env) (ns : nodeServer)
    (req : NodePublishVolumeRequest) (h h1 h2 : List Event) (e : OSError)
    (hi : InspectedNotMounted env req h h1) (hp : Provisioned env req h1 h2)
    (hm : env.mount h2 (mountSource req) req.targetPath "nfs" (mountOptions req) = some e) :
    (NodePublishVolume env ns req h).1 =
      Outcome.returned (some (GoError.status
        (if e.isPermission = true then Code.PermissionDenied
          else if stringsContains e.msg "invalid argument" = true then Code.InvalidArgument
          else Code.Internal)
        e.msg)) := by
  rw [NodePublishVolume_reaches_mount env ns req h h1 h2 hi hp, hm]
  simp only [Option.map, mountFailure]
  split_ifs <;> rfl

/-- Concrete instance in the sample world: a final mount that fails with
a permission error, with an invalid-argument message, and with another
message. -/
theorem NodePublishVolume_mount_error_kind_witness :
    (NodePublishVolume
        (faultyWorld none none none none (some ⟨"permission denied", false, true⟩))
        ⟨false⟩ (sampleRequest "/exports/data" "false" [] true) []).1 =
      Outcome.returned (some (GoError.status Code.PermissionDenied "permission denied")) ∧
    (NodePublishVolume
        (faultyWorld none none none none
          (some ⟨"mount failed: invalid argument", false, false⟩))
        ⟨false⟩ (sampleRequest "/exports/data" "false" [] true) []).1 =
      Outcome.returned (some (GoError.status Code.InvalidArgument
        "mount failed: invalid argument")) ∧
    (NodePublishVolume
        (faultyWorld none none none none (some ⟨"connection timed out", false, false⟩))
        ⟨false⟩ (sampleRequest "/exports/data" "false" [] true) []).1 =
      Outcome.returned (some (GoError.status Code.Internal "connection timed out")) :=
  ⟨NodePublishVolume_mount_error_kind _ ⟨false⟩ (sampleRequest "/exports/data" "false" [] true)
      [] inspectedHistory inspectedHistory ⟨"permission denied", false, true⟩
      (Or.inr ⟨true, enoent, by decide, rfl, by decide, rfl⟩) (Or.inl ⟨by decide, rfl⟩)
      (by decide),
    NodePublishVolume_mount_error_kind _ ⟨false⟩ (sampleRequest "/exports/data" "false" [] true)
      [] inspectedHistory inspectedHistory ⟨"mount failed: invalid argument", false, false⟩
      (Or.inr ⟨true, enoent, by decide, rfl, by decide, rfl⟩) (Or.inl ⟨by decide, rfl⟩)
      (by decide),
    NodePublishVolume_mount_error_kind _ ⟨false⟩ (sampleRequest "/exports/data" "false" [] true)
      [] inspectedHistory inspectedHistory ⟨"connection timed out", false, false⟩
      (Or.inr ⟨true, enoent, by decide, rfl, by decide, rfl⟩) (Or.inl ⟨by decide, rfl⟩)
      (by decide)⟩

/-! ## The events of folder provisioning -/

/-- The retry loop only appends unmount attempts on its directory and
pauses, and makes at least one attempt when an iteration is allowed. -/
theorem unmountLoop_events (env : Env) (p : String) (n : Nat) :
    ∀ (err : Option OSError) (h : List Event),
      ∃ evs, (unmountLoop env p n err h).2 = h ++ evs ∧
        (∀ ev ∈ evs, (∃ r, ev = Event.cleanupMountPoint p false r) ∨ ev = Event.sleep 2) ∧
        (0 < n → unmountTried p evs = true) := by
  induction n with
  | zero =>
    intro err h
    exact ⟨[], by simp [unmountLoop], by simp, by simp⟩
  | succ k ih =>
    intro err h
    cases hr : env.cleanupMountPoint h p false with
    | none =>
      refine ⟨[Event.cleanupMountPoint p false none], ?_, ?_, ?_⟩
      · simp [unmountLoop, hr]
      · intro ev hev
        exact Or.inl ⟨none, by simpa using hev⟩
      · intro _
        simp [unmountTried]
    | some e =>
      obtain ⟨evs, h1, h2, _⟩ := ih (some e)
        (h ++ [Event.cleanupMountPoint p false (some e)] ++ [Event.sleep 2])
      refine ⟨Event.cleanupMountPoint p false (some e) :: Event.sleep 2 :: evs, ?_, ?_, ?_⟩
      · simp only [unmountLoop, hr]
        simpa using h1
      · intro ev hev
        rcases List.mem_cons.mp hev with rfl | hev
        · exact Or.inl ⟨some e, rfl⟩
        · rcases List.mem_cons.mp hev with rfl | hev
          · exact Or.inr rfl
          · exact h2 ev hev
      · intro _
        simp [unmountTried]

/-- The four ways a call of `CreateFolders` can go, with the events of
each: it stops after `TempDir` (fatal error, or panic while the share is
split), the staging mount fails, the creation of the subpath fails, or
it runs through the unmount loop and the removal. -/
theorem CreateFolders_cases (env : Env) (share : String) (mo : List String)
    (h : List Event) :
    (∃ o, (o = Outcome.exited 1 ∨ ∃ m, o = Outcome.panicked m) ∧
      CreateFolders env share mo h =
        (o, h ++ [Event.tempDir "/tmp" "FailoCreator"
          (env.tempDir h "/tmp" "FailoCreator").1 (env.tempDir h "/tmp" "FailoCreator").2])) ∨
    (∃ src e, CreateFolders env share mo h =
      (Outcome.returned (some (GoError.os e)),
        h ++ [Event.tempDir "/tmp" "FailoCreator" (env.tempDir h "/tmp" "FailoCreator").1 none,
          Event.mount src (env.tempDir h "/tmp" "FailoCreator").1 "nfs" mo (some e)])) ∨
    (∃ src dir e, CreateFolders env share mo h =
      (Outcome.returned (some (GoError.os e)),
        h ++ [Event.tempDir "/tmp" "FailoCreator" (env.tempDir h "/tmp" "FailoCreator").1 none,
          Event.mount src (env.tempDir h "/tmp" "FailoCreator").1 "nfs" mo none,
          Event.mkdirAll dir ModePerm (some e)])) ∨
    (∃ src dir loopEvs res, CreateFolders env share mo h =
      (Outcome.returned (Option.map GoError.os res),
        h ++ ([Event.tempDir "/tmp" "FailoCreator"
            (env.tempDir h "/tmp" "FailoCreator").1 none,
          Event.mount src (env.tempDir h "/tmp" "FailoCreator").1 "nfs" mo none,
          Event.mkdirAll dir ModePerm none] ++ loopEvs ++
          [Event.removeAll (env.tempDir h "/tmp" "FailoCreator").1 res])) ∧
      (∀ ev ∈ loopEvs,
        (∃ r, ev = Event.cleanupMountPoint (env.tempDir h "/tmp" "FailoCreator").1 false r) ∨
          ev = Event.sleep 2) ∧
      unmountTried (env.tempDir h "/tmp" "FailoCreator").1 loopEvs = true) := by
  cases htmp : (env.tempDir h "/tmp" "FailoCreator").2 with
  | some e0 =>
    exact Or.inl ⟨Outcome.exited 1, Or.inl rfl, by simp [CreateFolders, htmp]⟩
  | none =>
    cases hs : splitShare share with
    | error m =>
      exact Or.inl ⟨Outcome.panicked m, Or.inr ⟨m, rfl⟩, by simp [CreateFolders, htmp, hs]⟩
    | ok parts =>
      obtain ⟨src, sub⟩ := parts
      cases hmount : env.mount
          (h ++ [Event.tempDir "/tmp" "FailoCreator"
            (env.tempDir h "/tmp" "FailoCreator").1 none])
          src (env.tempDir h "/tmp" "FailoCreator").1 "nfs" mo with
      | some e =>
        exact Or.inr (Or.inl ⟨src, e, by simp [CreateFolders, htmp, hs, hmount]⟩)
      | none =>
        cases hmk : env.mkdirAll
            (h ++ [Event.tempDir "/tmp" "FailoCreator"
                (env.tempDir h "/tmp" "FailoCreator").1 none,
              Event.mount src (env.tempDir h "/tmp" "FailoCreator").1 "nfs" mo none])
            (pathJoin [(env.tempDir h "/tmp" "FailoCreator").1, sub]) ModePerm with
        | some e =>
          exact Or.inr (Or.inr (Or.inl ⟨src,
            pathJoin [(env.tempDir h "/tmp" "FailoCreator").1, sub], e,
            by simp [CreateFolders, htmp, hs, hmount, hmk]⟩))
        | none =>
          obtain ⟨evs, h1, h2, h3⟩ := unmountLoop_events env
            (env.tempDir h "/tmp" "FailoCreator").1 5 none
            (h ++ [Event.tempDir "/tmp" "FailoCreator"
                (env.tempDir h "/tmp" "FailoCreator").1 none,
              Event.mount src (env.tempDir h "/tmp" "FailoCreator").1 "nfs" mo none,
              Event.mkdirAll (pathJoin [(env.tempDir h "/tmp" "FailoCreator").1, sub])
                ModePerm none])
          refine Or.inr (Or.inr (Or.inr ⟨src,
            pathJoin [(env.tempDir h "/tmp" "FailoCreator").1, sub], evs,
            env.removeAll (h ++ [Event.tempDir "/tmp" "FailoCreator"
                (env.tempDir h "/tmp" "FailoCreator").1 none,
              Event.mount src (env.tempDir h "/tmp" "FailoCreator").1 "nfs" mo none,
              Event.mkdirAll (pathJoin [(env.tempDir h "/tmp" "FailoCreator").1, sub])
                ModePerm none] ++ evs) (env.tempDir h "/tmp" "FailoCreator").1,
            ?_, h2, h3 (by decide)⟩))
          simp [CreateFolders, htmp, hs, hmount, hmk, h1]

/-- The unmount attempts and pauses of the retry loop are not mounts. -/
theorem mountsAt_loop (t p : String) (evs : List Event)
    (hevs : ∀ ev ∈ evs, (∃ r, ev = Event.cleanupMountPoint p false r) ∨ ev = Event.sleep 2) :
    mountsAt t evs = [] := by
  unfold mountsAt
  rw [List.filter_eq_nil_iff]
  intro ev hev
  rcases hevs ev hev with ⟨r, rfl⟩ | rfl <;> simp

/-- The first call of `CreateFolders` is `TempDir`. -/
theorem CreateFolders_head (env : Env) (share : String) (mo : List String)
    (h : List Event) :
    ∃ name err rest, (CreateFolders env share mo h).2 =
      h ++ Event.tempDir "/tmp" "FailoCreator" name err :: rest := by
  rcases CreateFolders_cases env share mo h with
    ⟨o, _, hc⟩ | ⟨src, e, hc⟩ | ⟨src, dir, e, hc⟩ | ⟨src, dir, evs, res, hc, _, _⟩
  · exact ⟨_, _, [], by rw [hc]⟩
  · exact ⟨_, _, _, by rw [hc]⟩
  · exact ⟨_, _, _, by rw [hc]⟩
  · exact ⟨(env.tempDir h "/tmp" "FailoCreator").1, none,
      Event.mount src (env.tempDir h "/tmp" "FailoCreator").1 "nfs" mo none ::
        Event.mkdirAll dir ModePerm none ::
        (evs ++ [Event.removeAll (env.tempDir h "/tmp" "FailoCreator").1 res]),
      by rw [hc]; simp⟩

/-- A call of `CreateFolders` that returns a nil error mounts nothing at
a path other than its temporary directory. -/
theorem CreateFolders_mountsAt (env : Env) (share : String) (mo : List String)
    (h h2 : List Event) (t : String)
    (hc : CreateFolders env share mo h = (Outcome.returned none, h2))
    (ht : (env.tempDir h "/tmp" "FailoCreator").1 ≠ t) :
    ∃ evs, h2 = h ++ evs ∧ mountsAt t evs = [] := by
  rcases CreateFolders_cases env share mo h with
    ⟨o, ho, hc2⟩ | ⟨src, e, hc2⟩ | ⟨src, dir, e, hc2⟩ | ⟨src, dir, evs, res, hc2, hl, _⟩
  · rw [hc2] at hc
    rcases ho with rfl | ⟨m, rfl⟩ <;> simp at hc
  · rw [hc2] at hc
    simp at hc
  · rw [hc2] at hc
    simp at hc
  · rw [hc2] at hc
    refine ⟨_, (Prod.mk.inj hc).2.symm, ?_⟩
    have hloop := mountsAt_loop t _ evs hl
    unfold mountsAt at hloop ⊢
    simp [List.filter_append, List.filter_cons, hloop, ht]

/-- When the flag reads as `true`, the events of lines 63-93 start with
those of `CreateFolders`. -/
theorem publishNotMounted_invoked (env : Env) (ns : nodeServer)
    (req : NodePublishVolumeRequest) (h : List Event)
    (hf : mapGet req.volumeContext "createFolders" ∈ trueWords) :
    ∃ rest, (publishNotMounted env ns req h).2.2 =
      (CreateFolders env (mountSource req) (mountOptions req) h).2 ++ rest := by
  have hflag := createFolders_flag (mapGet req.volumeContext "createFolders")
  rw [decide_eq_true hf] at hflag
  unfold publishNotMounted
  simp only [hflag, mountSource, if_true]
  rcases hc : CreateFolders env (mapGet req.volumeContext "server" ++ ":" ++
    mapGet req.volumeContext "share") (mountOptions req) h with ⟨o, t⟩
  rcases o with (_ | e) | m | c
  · refine ⟨[Event.mount (mapGet req.volumeContext "server" ++ ":" ++
      mapGet req.volumeContext "share") req.targetPath "nfs" (mountOptions req)
      (env.mount t (mapGet req.volumeContext "server" ++ ":" ++
        mapGet req.volumeContext "share") req.targetPath "nfs" (mountOptions req))], ?_⟩
    cases hm : env.mount t (mapGet req.volumeContext "server" ++ ":" ++
      mapGet req.volumeContext "share") req.targetPath "nfs" (mountOptions req) <;>
      simp [hm]
  · exact ⟨[], by simp⟩
  · exact ⟨[], by simp⟩
  · exact ⟨[], by simp⟩

/-! ## The final mount and the flag -/

/-- C1: when the target path is found not mounted and folder provisioning
is skipped or succeeds, the events of `NodePublishVolume` end with one
`Mount` whose source is the server, a colon and the share, whose target
is the target path, whose type is `nfs` and whose options are the mount
flags of the request followed by `ro` exactly when the request is
read-only, and no other event is a mount at the target path; the value
of `createFolders` does not occur in the options.  The temporary
directory of the provisioning is taken to differ from the target path. -/
theorem NodePublishVolume_mounts_once (env : Env) (ns : nodeServer)
    (req : NodePublishVolumeRequest) (h h1 h2 : List Event)
    (hi : InspectedNotMounted env req h h1) (hp : Provisioned env req h1 h2)
    (htmp : mapGet req.volumeContext "createFolders" ∈ trueWords →
      (env.tempDir h1 "/tmp" "FailoCreator").1 ≠ req.targetPath) :
    ∃ pre r,
      (NodePublishVolume env ns req h).2.2 =
        h ++ (pre ++ [Event.mount
          (mapGet req.volumeContext "server" ++ ":" ++ mapGet req.volumeContext "share")
          req.targetPath "nfs"
          (req.mountFlags ++ if req.readonly = true then ["ro"] else []) r]) ∧
      mountsAt req.targetPath (pre ++ [Event.mount
          (mapGet req.volumeContext "server" ++ ":" ++ mapGet req.volumeContext "share")
          req.targetPath "nfs"
          (req.mountFlags ++ if req.readonly = true then ["ro"] else []) r]) =
        [Event.mount
          (mapGet req.volumeContext "server" ++ ":" ++ mapGet req.volumeContext "share")
          req.targetPath "nfs"
          (req.mountFlags ++ if req.readonly = true then ["ro"] else []) r] := by
  have hopts : mountOptions req = req.mountFlags ++ if req.readonly = true then ["ro"] else [] := by
    unfold mountOptions
    split_ifs <;> simp
  have hpre : ∃ pre, h2 = h ++ pre ∧ mountsAt req.targetPath pre = [] := by
    have h1pre : ∃ pre1, h1 = h ++ pre1 ∧ mountsAt req.targetPath pre1 = [] := by
      rcases hi with ⟨_, rfl⟩ | ⟨notMnt, e, _, _, _, rfl⟩
      · exact ⟨_, rfl, by simp [mountsAt]⟩
      · exact ⟨_, rfl, by simp [mountsAt]⟩
    obtain ⟨pre1, rfl, hm1⟩ := h1pre
    rcases hp with ⟨_, rfl⟩ | ⟨hf, hc⟩
    · exact ⟨pre1, rfl, hm1⟩
    · obtain ⟨evs, rfl, hm2⟩ := CreateFolders_mountsAt env _ _ _ h2 req.targetPath hc (htmp hf)
      refine ⟨pre1 ++ evs, by simp, ?_⟩
      unfold mountsAt at hm1 hm2 ⊢
      simp [List.filter_append, hm1, hm2]
  obtain ⟨pre, rfl, hm⟩ := hpre
  refine ⟨pre, env.mount (h ++ pre) (mountSource req) req.targetPath "nfs" (mountOptions req),
    ?_, ?_⟩
  · rw [NodePublishVolume_reaches_mount env ns req h h1 (h ++ pre) hi hp, ← hopts]
    simp [mountSource]
  · unfold mountsAt at hm ⊢
    simp [List.filter_append, hm]

/-- Concrete instance in the sample world, for a read-only request with
`createFolders` set to `true`, whose provisioning runs and succeeds. -/
theorem NodePublishVolume_mounts_once_witness :
    CreateFolders world "nfs.example.com:/exports/data/tenantA" ["vers=4", "ro"]
        inspectedHistory = (Outcome.returned none, provisionedHistory) ∧
    ∃ pre r,
      (NodePublishVolume world ⟨false⟩
          (sampleRequest "/exports/data/tenantA" "true" ["vers=4"] true) []).2.2 =
        [] ++ (pre ++ [Event.mount ("nfs.example.com" ++ ":" ++ "/exports/data/tenantA")
          "/mnt/v1" "nfs" (["vers=4"] ++ if true = true then ["ro"] else []) r]) ∧
      mountsAt "/mnt/v1" (pre ++ [Event.mount
          ("nfs.example.com" ++ ":" ++ "/exports/data/tenantA")
          "/mnt/v1" "nfs" (["vers=4"] ++ if true = true then ["ro"] else []) r]) =
        [Event.mount ("nfs.example.com" ++ ":" ++ "/exports/data/tenantA")
          "/mnt/v1" "nfs" (["vers=4"] ++ if true = true then ["ro"] else []) r] :=
  ⟨by decide,
    NodePublishVolume_mounts_once world ⟨false⟩
      (sampleRequest "/exports/data/tenantA" "true" ["vers=4"] true)
      [] inspectedHistory provisionedHistory
      (Or.inr ⟨true, enoent, by decide, rfl, by decide, rfl⟩)
      (Or.inr ⟨by decide, by decide⟩)
      (fun _ => by decide)⟩

/-- C9: once the target path is found not mounted, folder provisioning
is invoked (its first call, `TempDir`, follows the inspection) exactly
when the value of `createFolders` is one of `1`, `t`, `T`, `TRUE`,
`true`, `True`, which are the strings `ParseBool` reads as `true`; for any
other value, the absent key included, the final mount is the only
further call and the request succeeds when that mount does. -/
theorem createFolders_gates_provisioning (env : Env) (ns : nodeServer)
    (req : NodePublishVolumeRequest) (h h1 : List Event)
    (hi : InspectedNotMounted env req h h1) :
    (ParseBool (mapGet req.volumeContext "createFolders") = (true, false) ↔
      mapGet req.volumeContext "createFolders" ∈ ["1", "t", "T", "TRUE", "true", "True"]) ∧
    ((∃ name err rest, (NodePublishVolume env ns req h).2.2 =
        h1 ++ Event.tempDir "/tmp" "FailoCreator" name err :: rest) ↔
      mapGet req.volumeContext "createFolders" ∈ ["1", "t", "T", "TRUE", "true", "True"]) ∧
    (mapGet req.volumeContext "createFolders" ∉ ["1", "t", "T", "TRUE", "true", "True"] →
      (NodePublishVolume env ns req h).2.2 =
        h1 ++ [Event.mount (mountSource req) req.targetPath "nfs" (mountOptions req)
          (env.mount h1 (mountSource req) req.targetPath "nfs" (mountOptions req))] ∧
      (env.mount h1 (mountSource req) req.targetPath "nfs" (mountOptions req) = none →
        (NodePublishVolume env ns req h).1 = Outcome.returned none)) ∧
    (req.volumeContext.lookup "createFolders" = none →
      mapGet req.volumeContext "createFolders" ∉ ["1", "t", "T", "TRUE", "true", "True"]) := by
  have hskip : mapGet req.volumeContext "createFolders" ∉ trueWords →
      NodePublishVolume env ns req h =
        (Outcome.returned
            ((env.mount h1 (mountSource req) req.targetPath "nfs" (mountOptions req)).map
              mountFailure),
          ⟨false⟩,
          h1 ++ [Event.mount (mountSource req) req.targetPath "nfs" (mountOptions req)
            (env.mount h1 (mountSource req) req.targetPath "nfs" (mountOptions req))]) := by
    intro hf
    rw [NodePublishVolume_of_inspected env ns req h h1 hi, publishNotMounted_skip env ns req h1 hf]
  refine ⟨?_, ⟨?_, ?_⟩, ?_, ?_⟩
  · unfold ParseBool
    split_ifs <;> simp_all
  · rintro ⟨name, err, rest, htr⟩
    by_contra hf
    rw [hskip hf] at htr
    simp at htr
  · intro hf
    rw [NodePublishVolume_of_inspected env ns req h h1 hi]
    obtain ⟨rest, hrest⟩ := publishNotMounted_invoked env ns req h1 hf
    obtain ⟨name, err, rest2, hhead⟩ :=
      CreateFolders_head env (mountSource req) (mountOptions req) h1
    exact ⟨name, err, rest2 ++ rest, by rw [hrest, hhead]; simp⟩
  · intro hf
    rw [hskip hf]
    refine ⟨rfl, ?_⟩
    intro hm
    simp [hm]
  · intro hl
    simp [mapGet, hl]

/-- Concrete instance in the sample world, for an absent path: `True` is
read as true, the value `yes` is not and the request then mounts and
succeeds, and an absent key is not. -/
theorem createFolders_gates_provisioning_witness :
    (ParseBool "True" = (true, false) ↔
      "True" ∈ ["1", "t", "T", "TRUE", "true", "True"]) ∧
    ((NodePublishVolume world ⟨true⟩ (sampleRequest "/exports/data" "yes" [] false) []).2.2 =
        inspectedHistory ++
          [Event.mount "nfs.example.com:/exports/data" "/mnt/v1" "nfs" [] none] ∧
      (NodePublishVolume world ⟨true⟩ (sampleRequest "/exports/data" "yes" [] false) []).1 =
        Outcome.returned none) ∧
    mapGet [("server", "nfs.example.com"), ("share", "/exports/data")] "createFolders" ∉
      ["1", "t", "T", "TRUE", "true", "True"] :=
  ⟨(createFolders_gates_provisioning world ⟨true⟩
      (sampleRequest "/exports/data" "True" [] false) [] inspectedHistory
      (Or.inr ⟨true, enoent, by decide, rfl, by decide, rfl⟩)).1,
    ⟨((createFolders_gates_provisioning world ⟨true⟩
        (sampleRequest "/exports/data" "yes" [] false) [] inspectedHistory
        (Or.inr ⟨true, enoent, by decide, rfl, by decide, rfl⟩)).2.2.1 (by decide)).1,
      ((createFolders_gates_provisioning world ⟨true⟩
        (sampleRequest "/exports/data" "yes" [] false) [] inspectedHistory
        (Or.inr ⟨true, enoent, by decide, rfl, by decide, rfl⟩)).2.2.1 (by decide)).2
        (by decide)⟩,
    (createFolders_gates_provisioning world ⟨true⟩
      ⟨"/mnt/v1", [("server", "nfs.example.com"), ("share", "/exports/data")], [], false⟩
      [] inspectedHistory
      (Or.inr ⟨true, enoent, by decide, rfl, by decide, rfl⟩)).2.2.2 (by decide)⟩

/-! ## Splitting a well-formed share -/

/-- The accumulator loop of `String.intercalate`, on characters. -/
theorem stringsJoin_go (sep : String) (l : List String) (acc : String) :
    String.intercalate.go acc sep l =
      String.mk (acc.data ++ (l.map (fun s => sep.data ++ s.data)).flatten) := by
  induction l generalizing acc with
  | nil => simp [String.intercalate.go]
  | cons a as ih =>
    simp [String.intercalate.go, ih, String.data_append]

/-- The model of `strings.Join` is `String.intercalate`. -/
theorem stringsJoin_eq_intercalate (l : List String) (sep : String) :
    stringsJoin l sep = sep.intercalate l := by
  cases l with
  | nil => rfl
  | cons a as =>
    simp only [String.intercalate, stringsJoin_go, stringsJoin]
    congr 1
    induction as generalizing a with
    | nil => simp [List.intercalate]
    | cons b bs ih =>
      have := ih b
      simp only [List.intercalate, List.map_cons, List.intersperse_cons_cons,
        List.flatten_cons] at this ⊢
      rw [this]
      simp

/-- The characters of `slashPath`: every segment after a slash. -/
theorem slashPath_data (segs : List String) :
    (slashPath segs).data = (segs.map (fun s => '/' :: s.data)).flatten := by
  induction segs with
  | nil => rfl
  | cons s ss ih => simp [slashPath, String.data_append, ih]

/-- Splitting after a run without the separator: the run joins the first
piece. -/
theorem splitOn_append_left (sep : Char) (a rest : List Char) (ha : sep ∉ a) :
    (a ++ rest).splitOn sep = (rest.splitOn sep).modifyHead (fun w => a ++ w) := by
  induction a with
  | nil =>
    simp only [List.nil_append]
    cases hr : rest.splitOn sep <;> rfl
  | cons c cs ih =>
    have hc : (c == sep) = false := by
      simp only [beq_eq_false_iff_ne, ne_eq]
      intro hcs
      exact ha (by simp [hcs])
    have hcs : sep ∉ cs := fun hmem => ha (List.mem_cons_of_mem _ hmem)
    simp only [List.splitOn] at ih ⊢
    rw [List.cons_append, List.splitOnP_cons, ih hcs]
    simp only [hc, Bool.false_eq_true, if_false]
    cases hr : List.splitOnP (fun x => x == sep) rest <;> rfl

/-- Splitting segments that each follow a separator gives an empty first
piece and then the segments. -/
theorem splitOn_flatten (sep : Char) (segs : List (List Char)) (hs : ∀ l ∈ segs, sep ∉ l) :
    ((segs.map (fun s => sep :: s)).flatten).splitOn sep = [] :: segs := by
  induction segs with
  | nil => rfl
  | cons a as ih =>
    have hrest := ih (fun l hl => hs l (List.mem_cons_of_mem _ hl))
    have ha : sep ∉ a := hs a (List.mem_cons_self _ _)
    have happ := splitOn_append_left sep a ((as.map (fun s => sep :: s)).flatten) ha
    rw [hrest] at happ
    simp only [List.map_cons, List.flatten_cons, List.cons_append]
    simp only [List.splitOn] at happ ⊢
    rw [List.splitOnP_cons, happ]
    simp

/-- A list without the separator is a single piece. -/
theorem splitOn_single (sep : Char) (l : List Char) (hl : sep ∉ l) :
    l.splitOn sep = [l] := by
  apply List.splitOnP_eq_single
  intro x hx hxs
  rw [eq_of_beq hxs] at hx
  exact hl hx


/-- Line 175 on a well-formed share: the host and the remote path. -/
theorem stringsSplit_colon (host root : String) (rest : List String)
    (hhost : ':' ∉ host.data)
    (hsegs : ∀ seg ∈ root :: rest, '/' ∉ seg.data ∧ ':' ∉ seg.data) :
    stringsSplit (host ++ ":/" ++ root ++ slashPath rest) ':' =
      [host, slashPath (root :: rest)] := by
  have hR : ':' ∉ (slashPath (root :: rest)).data := by
    rw [slashPath_data]
    simp only [List.mem_flatten, List.mem_map, not_exists, not_and]
    rintro l ⟨s, hs, rfl⟩ hmem
    rcases List.mem_cons.mp hmem with hc | hmem
    · exact absurd hc (by decide)
    · exact (hsegs s hs).2 hmem
  have hdata : (host ++ ":/" ++ root ++ slashPath rest).data =
      host.data ++ ':' :: (slashPath (root :: rest)).data := by
    simp [slashPath, String.data_append]
  unfold stringsSplit
  rw [hdata, splitOn_append_left ':' _ _ hhost]
  simp only [List.splitOn]
  rw [List.splitOnP_cons]
  have := splitOn_single ':' _ hR
  simp only [List.splitOn] at this
  simp [this]

/-- Line 178 on a well-formed remote path: an empty first element and
then the segments. -/
theorem stringsSplit_slash (segs : List String) (hsegs : ∀ seg ∈ segs, '/' ∉ seg.data) :
    stringsSplit (slashPath segs) '/' = "" :: segs := by
  unfold stringsSplit
  rw [slashPath_data]
  have := splitOn_flatten '/' (segs.map String.data) (by
    intro l hl
    obtain ⟨s, hs, rfl⟩ := List.mem_map.mp hl
    exact hsegs s hs)
  rw [List.map_map] at this
  have hfun : ((fun s => '/' :: s) ∘ String.data) = (fun s : String => '/' :: s.data) := rfl
  rw [hfun] at this
  rw [this]
  have hid : (String.mk ∘ String.data) = (id : String → String) := rfl
  simp [hid]

/-- Lines 175-185 on a well-formed share: the staging source is the host
and the first segment, the subpath is the other segments joined. -/
theorem splitShare_wellformed (host root : String) (rest : List String)
    (hhost : ':' ∉ host.data)
    (hsegs : ∀ seg ∈ root :: rest, '/' ∉ seg.data ∧ ':' ∉ seg.data) :
    splitShare (host ++ ":/" ++ root ++ slashPath rest) =
      Except.ok (host ++ ":/" ++ root, stringsJoin rest "/") := by
  unfold splitShare
  simp only [stringsSplit_colon host root rest hhost hsegs]
  simp [stringsSplit_slash (root :: rest) (fun s hs => (hsegs s hs).1), sliceFrom]


/-- Without `..` elements, `path.Clean` keeps every element. -/
theorem foldl_cleanStep_plain (rooted : Bool) (segs : List (List Char)) :
    ∀ acc : List (List Char), (∀ s ∈ segs, s ≠ ['.', '.']) →
      segs.foldl (cleanStep rooted) acc = segs.reverse ++ acc := by
  induction segs with
  | nil => intro acc _; rfl
  | cons s ss ih =>
    intro acc hs
    have h1 : s ≠ ['.', '.'] := hs s (List.mem_cons_self _ _)
    rw [List.foldl_cons, ih _ (fun x hx => hs x (List.mem_cons_of_mem _ hx))]
    simp [cleanStep, h1]

/-- A slash before the joined segments is a slash before each segment. -/
theorem slash_intercalate (segs : List (List Char)) (hne : segs ≠ []) :
    '/' :: List.intercalate ['/'] segs = (segs.map (fun s => '/' :: s)).flatten := by
  induction segs with
  | nil => exact absurd rfl hne
  | cons a as ih =>
    cases as with
    | nil => simp [List.intercalate]
    | cons b bs =>
      have := ih (by simp)
      simp only [List.intercalate, List.intersperse_cons_cons, List.flatten_cons,
        List.map_cons, List.singleton_append, List.cons_append] at this ⊢
      rw [← this]
      simp

/-- The characters of the model of `strings.Join`. -/
theorem intercalate_data (sep : String) (l : List String) :
    (sep.intercalate l).data = List.intercalate sep.data (l.map String.data) := by
  rw [← stringsJoin_eq_intercalate]
  rfl

/-- The function `path.Clean` on a rooted path without `..` elements:
the empty and the `.` elements vanish, the others stay in order. -/
theorem pathClean_rooted (p : String) (segs : List (List Char))
    (hall : ∀ l ∈ segs, '/' ∉ l ∧ l ≠ ['.', '.'])
    (hp : p.data = (segs.map (fun s => '/' :: s)).flatten)
    (hkept : segs.filter (fun e => decide (e ≠ [] ∧ e ≠ ['.'])) ≠ []) :
    pathClean p = String.mk
      (((segs.filter (fun e => decide (e ≠ [] ∧ e ≠ ['.']))).map
        (fun s => '/' :: s)).flatten) := by
  have hne : segs ≠ [] := by
    intro hc
    rw [hc] at hkept
    exact hkept rfl
  obtain ⟨a, as, rfl⟩ := List.exists_cons_of_ne_nil hne
  have hrooted : p.data.head? = some '/' := by rw [hp]; rfl
  have hpne : p ≠ "" := by
    intro hc
    rw [hc] at hrooted
    exact absurd hrooted (by decide)
  have hsplit : p.data.splitOn '/' = [] :: a :: as := by
    rw [hp]
    exact splitOn_flatten '/' (a :: as) (fun l hl => (hall l hl).1)
  have hfilter : ([] :: a :: as).filter (fun e => decide (e ≠ [] ∧ e ≠ ['.'])) =
      (a :: as).filter (fun e => decide (e ≠ [] ∧ e ≠ ['.'])) := by
    rw [List.filter_cons]
    simp
  have hfold := foldl_cleanStep_plain true
    ((a :: as).filter (fun e => decide (e ≠ [] ∧ e ≠ ['.']))) []
    (fun l hl => (hall l (List.mem_of_mem_filter hl)).2)
  have hback := slash_intercalate
    ((a :: as).filter (fun e => decide (e ≠ [] ∧ e ≠ ['.']))) hkept
  unfold pathClean
  rw [if_neg hpne]
  simp only [hrooted, hsplit, hfilter, hfold, decide_True, if_true, List.append_nil,
    List.reverse_reverse, hback]

/-- The kept segments, on characters. -/
theorem keptSegments_data (rest : List String) :
    (rest.map String.data).filter (fun e => decide (e ≠ [] ∧ e ≠ ['.'])) =
      (keptSegments rest).map String.data := by
  unfold keptSegments
  induction rest with
  | nil => rfl
  | cons s ss ih =>
    have hs : decide (s.data ≠ [] ∧ s.data ≠ ['.']) = decide (s ≠ "" ∧ s ≠ ".") := by
      have h1 : s.data = [] ↔ s = "" := ⟨fun hc => String.ext hc, fun hc => by rw [hc]⟩
      have h2 : s.data = ['.'] ↔ s = "." := ⟨fun hc => String.ext hc, fun hc => by rw [hc]⟩
      simp only [ne_eq, h1, h2]
    rw [List.map_cons, List.filter_cons, List.filter_cons, ih, hs]
    split_ifs <;> rfl

/-- The path of the directory that `CreateFolders` creates, for a
temporary directory named by `TempDir` and a subpath without `..`
segments: the temporary directory followed by the kept segments. -/
theorem pathJoin_staging (sfx : String) (rest : List String) (hsfx : '/' ∉ sfx.data)
    (hrest : ∀ s ∈ rest, '/' ∉ s.data ∧ s ≠ "..") :
    pathJoin ["/tmp/FailoCreator" ++ sfx, "/".intercalate rest] =
      "/tmp/FailoCreator" ++ sfx ++ slashPath (keptSegments rest) := by
  have htmp : ("/tmp/FailoCreator" ++ sfx).data =
      (([['t', 'm', 'p'], "FailoCreator".data ++ sfx.data] : List (List Char)).map
        (fun s => '/' :: s)).flatten := by
    simp [String.data_append]
  have hne : "/tmp/FailoCreator" ++ sfx ≠ "" := by
    intro hc
    have := congrArg String.data hc
    rw [htmp] at this
    simp at this
  have hjoin : (stringsJoin ["/tmp/FailoCreator" ++ sfx, "/".intercalate rest] "/").data =
      ("/tmp/FailoCreator" ++ sfx).data ++ '/' :: ("/".intercalate rest).data := by
    simp [stringsJoin, List.intercalate]
  have hres : (([['t', 'm', 'p'], "FailoCreator".data ++ sfx.data] ++
      (keptSegments rest).map String.data).map (fun s => '/' :: s)).flatten =
      ("/tmp/FailoCreator" ++ sfx ++ slashPath (keptSegments rest)).data := by
    rw [String.data_append, htmp, slashPath_data, List.map_append, List.flatten_append,
      List.map_map]
    rfl
  have hhead : ∀ l ∈ ([['t', 'm', 'p'], "FailoCreator".data ++ sfx.data] : List (List Char)),
      ('/' ∉ l ∧ l ≠ ['.', '.']) ∧ decide (l ≠ [] ∧ l ≠ ['.']) = true := by
    intro l hl
    rcases List.mem_cons.mp hl with rfl | hl
    · decide
    rw [List.mem_singleton.mp hl]
    refine ⟨⟨?_, ?_⟩, ?_⟩
    · intro hmem
      rcases List.mem_append.mp hmem with hm | hm
      · exact absurd hm (by decide)
      · exact hsfx hm
    · intro hc; simp at hc
    · simp
  have hrestc : ∀ l ∈ rest.map String.data, '/' ∉ l ∧ l ≠ ['.', '.'] := by
    intro l hl
    obtain ⟨s, hs, rfl⟩ := List.mem_map.mp hl
    exact ⟨(hrest s hs).1, fun hc => (hrest s hs).2 (String.ext hc)⟩
  have hheadfilter : ([['t', 'm', 'p'], "FailoCreator".data ++ sfx.data] :
      List (List Char)).filter (fun e => decide (e ≠ [] ∧ e ≠ ['.'])) =
      [['t', 'm', 'p'], "FailoCreator".data ++ sfx.data] := by
    rw [List.filter_eq_self]
    exact fun l hl => (hhead l hl).2
  have key : ∀ extra : List (List Char),
      extra.filter (fun e => decide (e ≠ [] ∧ e ≠ ['.'])) = (keptSegments rest).map String.data →
      (∀ l ∈ extra, '/' ∉ l ∧ l ≠ ['.', '.']) →
      (stringsJoin ["/tmp/FailoCreator" ++ sfx, "/".intercalate rest] "/").data =
        (([['t', 'm', 'p'], "FailoCreator".data ++ sfx.data] ++ extra).map
          (fun s => '/' :: s)).flatten →
      pathClean (stringsJoin ["/tmp/FailoCreator" ++ sfx, "/".intercalate rest] "/") =
        "/tmp/FailoCreator" ++ sfx ++ slashPath (keptSegments rest) := by
    intro extra hextra hall hp
    have hf : ([['t', 'm', 'p'], "FailoCreator".data ++ sfx.data] ++ extra).filter
        (fun e => decide (e ≠ [] ∧ e ≠ ['.'])) =
        [['t', 'm', 'p'], "FailoCreator".data ++ sfx.data] ++
          (keptSegments rest).map String.data := by
      rw [List.filter_append, hheadfilter, hextra]
    rw [pathClean_rooted _ _ (fun l hl => by
        rcases List.mem_append.mp hl with hl | hl
        · exact (hhead l hl).1
        · exact hall l hl) hp (by rw [hf]; simp), hf, hres]
  unfold pathJoin
  rw [if_neg hne]
  by_cases hr : rest = []
  · apply key [[]]
    · rw [hr]; rfl
    · intro l hl
      rw [List.mem_singleton.mp hl]
      exact ⟨List.not_mem_nil _, by simp⟩
    · rw [hjoin, htmp, hr]
      simp [String.intercalate]
  · apply key (rest.map String.data) (keptSegments_data rest) hrestc
    have hslash := slash_intercalate (rest.map String.data) (by simpa using hr)
    rw [hjoin, htmp, intercalate_data]
    have hsep : "/".data = ['/'] := rfl
    rw [hsep, hslash]
    simp

/-- C5, as stated, fails: the segments `exports`, `..`, `..`, `etc`, `x`
contain neither `/` nor `:`, yet for the share built from them
`CreateFolders` calls `MkdirAll` on `/etc/x`, which is not the subpath
under the temporary directory `/tmp/FailoCreator0` and does not even
start with it. -/
theorem CreateFolders_subpath_escapes_staging :
    ':' ∉ "nfs.example.com".data ∧
    (∀ seg ∈ ["exports", "..", "..", "etc", "x"], '/' ∉ seg.data ∧ ':' ∉ seg.data) ∧
    CreateFolders world
        ("nfs.example.com" ++ ":/" ++ "exports" ++ slashPath ["..", "..", "etc", "x"]) [] [] =
      (Outcome.returned none,
        [Event.tempDir "/tmp" "FailoCreator" "/tmp/FailoCreator0" none,
          Event.mount "nfs.example.com:/exports" "/tmp/FailoCreator0" "nfs" [] none,
          Event.mkdirAll "/etc/x" 0o777 none,
          Event.cleanupMountPoint "/tmp/FailoCreator0" false none,
          Event.removeAll "/tmp/FailoCreator0" none]) ∧
    "/etc/x" ≠ "/tmp/FailoCreator0" ++ slashPath ["..", "..", "etc", "x"] ∧
    "/tmp/FailoCreator0".data.isPrefixOf "/etc/x".data = false := by
  decide

/-- C5, amended: for a host without `:` and segments `root, s1, ..., sn`
without `/` or `:`, none of `s1, ..., sn` being `..`, `CreateFolders` on
`host:/root/s1/.../sn`, once `TempDir` has named the directory `tmp`
(`/tmp/FailoCreator` and a suffix without `/`), mounts `host:/root` at
`tmp` with type `nfs` and the given options and, when that mount
succeeds, next calls `MkdirAll` with mode `0777` on `tmp` followed by the
segments `s1, ..., sn` that are neither empty nor `.` (all of them when
none is); for `n = 0` the subpath is empty and the directory to create
is `tmp` itself; and when the mounts, the creation and the removal
succeed the call returns a nil error. -/
theorem CreateFolders_stages_root (env : Env) (host root : String) (rest mo : List String)
    (h : List Event) (sfx : String)
    (hhost : ':' ∉ host.data)
    (hsegs : ∀ seg ∈ root :: rest, '/' ∉ seg.data ∧ ':' ∉ seg.data)
    (hdots : ∀ seg ∈ rest, seg ≠ "..")
    (hsfx : '/' ∉ sfx.data)
    (htmp : env.tempDir h "/tmp" "FailoCreator" = ("/tmp/FailoCreator" ++ sfx, none)) :
    (∃ evs, (CreateFolders env (host ++ ":/" ++ root ++ slashPath rest) mo h).2 =
        h ++ Event.tempDir "/tmp" "FailoCreator" ("/tmp/FailoCreator" ++ sfx) none ::
          Event.mount (host ++ ":/" ++ root) ("/tmp/FailoCreator" ++ sfx) "nfs" mo
            (env.mount
              (h ++ [Event.tempDir "/tmp" "FailoCreator" ("/tmp/FailoCreator" ++ sfx) none])
              (host ++ ":/" ++ root) ("/tmp/FailoCreator" ++ sfx) "nfs" mo) :: evs ∧
        (env.mount
            (h ++ [Event.tempDir "/tmp" "FailoCreator" ("/tmp/FailoCreator" ++ sfx) none])
            (host ++ ":/" ++ root) ("/tmp/FailoCreator" ++ sfx) "nfs" mo = none →
          ∃ r evs2, evs =
            Event.mkdirAll ("/tmp/FailoCreator" ++ sfx ++ slashPath (keptSegments rest))
              0o777 r :: evs2)) ∧
    ((∀ seg ∈ rest, seg ≠ "" ∧ seg ≠ ".") → keptSegments rest = rest) ∧
    (rest = [] → "/".intercalate rest = "" ∧
      "/tmp/FailoCreator" ++ sfx ++ slashPath (keptSegments rest) = "/tmp/FailoCreator" ++ sfx) ∧
    ((∀ h1 s t f o, env.mount h1 s t f o = none) → (∀ h1 p m, env.mkdirAll h1 p m = none) →
      (∀ h1 p, env.removeAll h1 p = none) →
      (CreateFolders env (host ++ ":/" ++ root ++ slashPath rest) mo h).1 =
        Outcome.returned none) := by
  have hs := splitShare_wellformed host root rest hhost hsegs
  rw [stringsJoin_eq_intercalate] at hs
  have hdir := pathJoin_staging sfx rest hsfx
    (fun s hs => ⟨(hsegs s (List.mem_cons_of_mem _ hs)).1, hdots s hs⟩)
  refine ⟨?_, ?_, ?_, ?_⟩
  · cases hm : env.mount
        (h ++ [Event.tempDir "/tmp" "FailoCreator" ("/tmp/FailoCreator" ++ sfx) none])
        (host ++ ":/" ++ root) ("/tmp/FailoCreator" ++ sfx) "nfs" mo with
    | some e =>
      exact ⟨[], by simp [CreateFolders, htmp, hs, hm], by simp⟩
    | none =>
      cases hmk : env.mkdirAll
          (h ++ [Event.tempDir "/tmp" "FailoCreator" ("/tmp/FailoCreator" ++ sfx) none,
            Event.mount (host ++ ":/" ++ root) ("/tmp/FailoCreator" ++ sfx) "nfs" mo none])
          ("/tmp/FailoCreator" ++ sfx ++ slashPath (keptSegments rest)) 0o777 with
      | some e =>
        exact ⟨[Event.mkdirAll ("/tmp/FailoCreator" ++ sfx ++ slashPath (keptSegments rest))
            0o777 (some e)],
          by simp [CreateFolders, htmp, hs, hm, hdir, hmk, ModePerm], fun _ => ⟨_, _, rfl⟩⟩
      | none =>
        obtain ⟨evs, h1, _, _⟩ := unmountLoop_events env ("/tmp/FailoCreator" ++ sfx) 5 none
          (h ++ [Event.tempDir "/tmp" "FailoCreator" ("/tmp/FailoCreator" ++ sfx) none,
            Event.mount (host ++ ":/" ++ root) ("/tmp/FailoCreator" ++ sfx) "nfs" mo none,
            Event.mkdirAll ("/tmp/FailoCreator" ++ sfx ++ slashPath (keptSegments rest))
              0o777 none])
        refine ⟨Event.mkdirAll ("/tmp/FailoCreator" ++ sfx ++ slashPath (keptSegments rest))
            0o777 none ::
          (evs ++ [Event.removeAll ("/tmp/FailoCreator" ++ sfx) (env.removeAll
            (h ++ [Event.tempDir "/tmp" "FailoCreator" ("/tmp/FailoCreator" ++ sfx) none,
              Event.mount (host ++ ":/" ++ root) ("/tmp/FailoCreator" ++ sfx) "nfs" mo none,
              Event.mkdirAll ("/tmp/FailoCreator" ++ sfx ++ slashPath (keptSegments rest))
                0o777 none] ++ evs)
            ("/tmp/FailoCreator" ++ sfx))]), ?_, fun _ => ⟨_, _, rfl⟩⟩
        simp [CreateFolders, htmp, hs, hm, hdir, hmk, h1, ModePerm]
  · intro hplain
    unfold keptSegments
    rw [List.filter_eq_self]
    intro s hs
    simp [hplain s hs]
  · rintro rfl
    exact ⟨rfl, by simp [keptSegments, slashPath]⟩
  · intro hmount hmkdir hremove
    simp [CreateFolders, htmp, hs, hmount, hmkdir, hremove]

/-- Concrete instance in the sample world: the staging of
`nfs.example.com:/exports` for the subpath `data/./tenantA`, whose `.`
is dropped, and the empty subpath of `h:/root`. -/
theorem CreateFolders_stages_root_witness :
    (∃ evs, (CreateFolders world
          ("nfs.example.com" ++ ":/" ++ "exports" ++ slashPath ["data", ".", "tenantA"])
          ["vers=4"] []).2 =
        [] ++ Event.tempDir "/tmp" "FailoCreator" ("/tmp/FailoCreator" ++ "0") none ::
          Event.mount ("nfs.example.com" ++ ":/" ++ "exports") ("/tmp/FailoCreator" ++ "0")
            "nfs" ["vers=4"]
            (world.mount
              ([] ++ [Event.tempDir "/tmp" "FailoCreator" ("/tmp/FailoCreator" ++ "0") none])
              ("nfs.example.com" ++ ":/" ++ "exports") ("/tmp/FailoCreator" ++ "0") "nfs"
              ["vers=4"])
            :: evs ∧
        (world.mount
            ([] ++ [Event.tempDir "/tmp" "FailoCreator" ("/tmp/FailoCreator" ++ "0") none])
            ("nfs.example.com" ++ ":/" ++ "exports") ("/tmp/FailoCreator" ++ "0") "nfs"
            ["vers=4"] = none →
          ∃ r evs2, evs =
            Event.mkdirAll
              ("/tmp/FailoCreator" ++ "0" ++ slashPath (keptSegments ["data", ".", "tenantA"]))
              0o777 r :: evs2)) ∧
    keptSegments ["data", "tenantA"] = ["data", "tenantA"] ∧
    "/tmp/FailoCreator" ++ "0" ++ slashPath (keptSegments []) = "/tmp/FailoCreator" ++ "0" ∧
    (CreateFolders world ("h" ++ ":/" ++ "root" ++ slashPath []) [] []).1 =
      Outcome.returned none :=
  ⟨(CreateFolders_stages_root world "nfs.example.com" "exports" ["data", ".", "tenantA"]
      ["vers=4"] [] "0" (by decide) (by decide) (by decide) (by decide) (by decide)).1,
    (CreateFolders_stages_root world "nfs.example.com" "exports" ["data", "tenantA"]
      ["vers=4"] [] "0" (by decide) (by decide) (by decide) (by decide) (by decide)).2.1
      (by decide),
    ((CreateFolders_stages_root world "h" "root" [] [] [] "0"
      (by decide) (by decide) (by decide) (by decide) (by decide)).2.2.1 rfl).2,
    (CreateFolders_stages_root world "h" "root" [] [] [] "0"
      (by decide) (by decide) (by decide) (by decide) (by decide)).2.2.2
      (fun _ _ _ _ _ => rfl) (fun _ _ _ => rfl) (fun _ _ => rfl)⟩

/-! ## Malformed shares, cleanup and the returned error -/

/-- C6: the share strings `nodelimiter` (no colon) and
`nfs.example.com:exports` (no slash in the remote path) make
`CreateFolders` panic with an index out of range instead of returning
an error, and so does `NodePublishVolume` for the share `exports` with
`createFolders` set to `true`. -/
theorem CreateFolders_panics_on_malformed_share :
    CreateFolders world "nodelimiter" [] [] =
      (Outcome.panicked "index out of range",
        [Event.tempDir "/tmp" "FailoCreator" "/tmp/FailoCreator0" none]) ∧
    CreateFolders world "nfs.example.com:exports" [] [] =
      (Outcome.panicked "index out of range",
        [Event.tempDir "/tmp" "FailoCreator" "/tmp/FailoCreator0" none]) ∧
    NodePublishVolume world ⟨false⟩ (sampleRequest "exports" "true" [] false) [] =
      (Outcome.panicked "index out of range", ⟨true⟩,
        inspectedHistory ++ [Event.tempDir "/tmp" "FailoCreator" "/tmp/FailoCreator2" none]) := by
  decide

/-- C7: when the staging mount fails, `CreateFolders` returns without
a call of `RemoveAll` on its temporary directory; when the creation of
the subpath fails, it returns with the staging mount in place, without
a call of `CleanupMountPoint` and without a call of `RemoveAll`. -/
theorem CreateFolders_leaves_staging_behind :
    (CreateFolders (faultyWorld (some mountExit32) none none none none)
        "nfs.example.com:/exports/data" [] [] =
      (Outcome.returned (some (GoError.os mountExit32)),
        [Event.tempDir "/tmp" "FailoCreator" "/tmp/FailoCreator0" none,
          Event.mount "nfs.example.com:/exports" "/tmp/FailoCreator0" "nfs" []
            (some mountExit32)]) ∧
      removalTried "/tmp/FailoCreator0"
        (CreateFolders (faultyWorld (some mountExit32) none none none none)
          "nfs.example.com:/exports/data" [] []).2 = false) ∧
    (CreateFolders (faultyWorld none (some ebusy) none none none)
        "nfs.example.com:/exports/data" [] [] =
      (Outcome.returned (some (GoError.os ebusy)),
        [Event.tempDir "/tmp" "FailoCreator" "/tmp/FailoCreator0" none,
          Event.mount "nfs.example.com:/exports" "/tmp/FailoCreator0" "nfs" [] none,
          Event.mkdirAll "/tmp/FailoCreator0/data" 0o777 (some ebusy)]) ∧
      unmountTried "/tmp/FailoCreator0"
        (CreateFolders (faultyWorld none (some ebusy) none none none)
          "nfs.example.com:/exports/data" [] []).2 = false ∧
      removalTried "/tmp/FailoCreator0"
        (CreateFolders (faultyWorld none (some ebusy) none none none)
          "nfs.example.com:/exports/data" [] []).2 = false) := by
  decide

/-- C10: when the staging mount of the provisioning fails,
`NodePublishVolume` returns the error of the mounter unchanged; it is
not a status error, and its code is `Unknown`, none of
`PermissionDenied`, `InvalidArgument` and `Internal`. -/
theorem NodePublishVolume_returns_unclassified_error :
    (NodePublishVolume (faultyWorld (some mountExit32) none none none none) ⟨false⟩
        (sampleRequest "/exports/data/tenantA" "true" [] false) []).1 =
      Outcome.returned (some (GoError.os mountExit32)) ∧
    statusCode (GoError.os mountExit32) = Code.Unknown ∧
    statusCode (GoError.os mountExit32) ∉
      [Code.PermissionDenied, Code.InvalidArgument, Code.Internal] := by
  decide

end nfs
